import Mathlib

/-!
# Verification of the tsuru container-provisioning core

Shallow embedding of the parts of the tsuru PaaS control plane covered by
the specification: the service-instance unit binding (from
`service/service_instance.go`), and the docker provisioner operations
(unit-change engine, deploy/image catalog, container reconciliation,
unit registration, node-healer error scoping).  The provisioner
implementation itself is not part of the source excerpt (only its test
suite is), so those operations are modelled from the specification text,
as stated in each doc comment.
-/

set_option autoImplicit false

namespace Tsuru

/-! ## Service instance binding (`service/service_instance.go`) -/

namespace Service

/-- Errors that `BindUnit` / `UnbindUnit` can return, mirroring the error
values in `service/service_instance.go`: `ErrUnitAlreadyBound`,
`ErrUnitNotBound`, a failure to obtain the service endpoint client, a
database-connection failure, and an error from the remote endpoint call. -/
inductive BindErr where
  | endpointClientErr
  | connErr
  | unitAlreadyBound
  | unitNotBound
  | remoteBindErr
  | remoteUnbindErr
  deriving DecidableEq, Repr

/-- Outcomes of the external calls made by `BindUnit` / `UnbindUnit`:
whether `si.Service().getClient("production")` succeeds, whether the
`db.Conn()` of the main path succeeds, whether the remote
`endpoint.BindUnit` / `endpoint.UnbindUnit` call succeeds, and whether
the `db.Conn()` opened by the rollback `si.update(...)` succeeds
(the rollback opens a fresh connection). -/
structure BindEnv where
  clientOk : Bool
  connOk : Bool
  endpointOk : Bool
  rollbackConnOk : Bool
  deriving DecidableEq, Repr

/-- MongoDB `$addToSet` on the `units` array: append the value unless it
is already present. -/
def addToSet (l : List String) (u : String) : List String :=
  if u ∈ l then l else l ++ [u]

/-- MongoDB `$pull` on the `units` array: remove every occurrence of the
value. -/
def pullAll (l : List String) (u : String) : List String :=
  l.filter (fun x => x ≠ u)

/-- The store's view of one service instance: `none` when no document
with the instance's name exists, otherwise the document's `Units` list.
`BindUnit`/`UnbindUnit` touch no other field. -/
abbrev UnitsDoc := Option (List String)

/-- `ServiceInstance.BindUnit` from `service/service_instance.go`:
obtain the endpoint client, open a connection, run
`Update({name: si.Name, units: {$ne: unit}}, {$addToSet: {units: unit}})`
(a no-match is reported as `ErrUnitAlreadyBound`), then call the remote
endpoint; if the endpoint call fails, roll the stored unit back out with
`si.update({$pull: {units: unit}})`, whose own failure is only logged. -/
def bindUnit (env : BindEnv) (doc : UnitsDoc) (u : String) :
    Except BindErr Unit × UnitsDoc :=
  if !env.clientOk then (.error .endpointClientErr, doc)
  else if !env.connOk then (.error .connErr, doc)
  else
    match doc with
    | none => (.error .unitAlreadyBound, doc)
    | some units =>
      if u ∈ units then (.error .unitAlreadyBound, some units)
      else
        let units' := addToSet units u
        if env.endpointOk then (.ok (), some units')
        else if env.rollbackConnOk then
          (.error .remoteBindErr, some (pullAll units' u))
        else
          (.error .remoteBindErr, some units')

/-- `ServiceInstance.UnbindUnit` from `service/service_instance.go`:
obtain the endpoint client, open a connection, run
`Update({name: si.Name, units: unit}, {$pull: {units: unit}})`
(a no-match is reported as `ErrUnitNotBound`), then call the remote
endpoint; if the endpoint call fails, add the unit back with
`si.update({$addToSet: {units: unit}})`, whose own failure is only
logged. -/
def unbindUnit (env : BindEnv) (doc : UnitsDoc) (u : String) :
    Except BindErr Unit × UnitsDoc :=
  if !env.clientOk then (.error .endpointClientErr, doc)
  else if !env.connOk then (.error .connErr, doc)
  else
    match doc with
    | none => (.error .unitNotBound, doc)
    | some units =>
      if u ∈ units then
        let units' := pullAll units u
        if env.endpointOk then (.ok (), some units')
        else if env.rollbackConnOk then
          (.error .remoteUnbindErr, some (addToSet units' u))
        else
          (.error .remoteUnbindErr, some units')
      else (.error .unitNotBound, some units)

/-- The set of units stored for the instance. -/
def unitSet (doc : UnitsDoc) : Option (Finset String) :=
  doc.map List.toFinset

end Service

/-! ## Node healer error scoping -/

namespace Healer

/-- The network-class failure kinds distinguished by the healer
(spec §4.6: connection refused, TLS, timeout, DNS). -/
inductive NetErrKind where
  | connRefused
  | tls
  | timeout
  | dns
  deriving DecidableEq, Repr

/-- An error observed while talking to a docker node: either a
network-class error or an application-level error (carrying its
message). -/
inductive NodeOpError where
  | network (kind : NetErrKind)
  | application (msg : String)
  deriving DecidableEq, Repr

/-- Whether an error is a network-class error. -/
def NodeOpError.isNetwork : NodeOpError → Bool
  | .network _ => true
  | .application _ => false

/-- The kind of node operation during which an error was raised:
a general operation on an existing container (image pull, inspect,
exec) or the creation of a new container. -/
inductive NodeOpKind where
  | general
  | creation
  deriving DecidableEq, Repr

/-- Modelled from the spec: the healer trigger-scoping rule of §4.6 and
the tsr 0.10.1 release notes (the healer implementation is not part of
the source excerpt).  For general operations only network-class errors
count toward node suspicion; for container creation any failure
counts. -/
def countsTowardSuspicion (op : NodeOpKind) (e : NodeOpError) : Bool :=
  match op with
  | .creation => true
  | .general => e.isNetwork

/-- Modelled from the spec: recording a node failure increments the
node's suspicion counter exactly when the error is in scope for the
operation kind. -/
def recordFailure (suspicion : Nat) (op : NodeOpKind) (e : NodeOpError) : Nat :=
  if countsTowardSuspicion op e then suspicion + 1 else suspicion

end Healer

/-! ## Container reconciliation (`fixContainers`) -/

namespace Fix

/-- The fields of a container record touched by the reconciliation pass
(spec §3: id, application, internal ip, host port, host address,
status). -/
structure ContRecord where
  id : String
  appName : String
  ip : String
  hostPort : String
  hostAddr : String
  status : String
  deriving DecidableEq, Repr

/-- What remote inspection reports for a container: its internal ip and
the first exposed host port. -/
structure Inspection where
  ip : String
  hostPort : String
  deriving DecidableEq, Repr

/-- Modelled from the spec: the `fixContainers` reconciliation of one
container (§8 scenario 6; the implementation is not part of the source
excerpt, only its tests are).  The record's IP and HostPort are updated
to the inspected values, except that an inspection reporting an empty
ip or an empty host port leaves the record completely unchanged. -/
def fixContainer (c : ContRecord) (insp : Inspection) : ContRecord :=
  if insp.ip = "" ∨ insp.hostPort = "" then c
  else { c with ip := insp.ip, hostPort := insp.hostPort }

/-- Modelled from the spec: the reconciliation pass over all container
records, inspecting each container by id. -/
def fixContainers (records : List ContRecord) (inspect : String → Inspection) :
    List ContRecord :=
  records.map (fun c => fixContainer c (inspect c.id))

end Fix

/-! ## Unit-change engine (AddUnits / RemoveUnits) -/

namespace Units

/-- A container record as seen by the unit-change engine: id,
application, process name and status (spec §3). -/
structure Container where
  id : String
  appName : String
  process : String
  status : String
  deriving DecidableEq, Repr

/-- The state touched by a unit-change operation: the container record
store, the set of containers present on the remote hosts (by id), the
router's route set (one route per container, keyed by container id) and
the service bindings (bound unit ids). -/
structure State where
  records : List Container
  remote : List String
  routes : List String
  binds : List String
  deriving DecidableEq, Repr

/-- Errors of the unit-change engine, following the spec's error
taxonomy (§7) and the messages pinned by the provisioner tests:
`ErrNoChange` for a zero-quantity call, `ErrNoDeploysYet` for scaling an
undeployed app, `tooMany requested available` for removing more units
than exist, a container-creation failure, and the route-removal failure
of a scale-down. -/
inductive UErr where
  | noChange
  | noDeploysYet
  | tooMany (requested : Nat) (available : Nat)
  | createFailed
  | routesNotRemoved
  | unbindFailed
  deriving DecidableEq, Repr

/-- The user-visible message of each engine error, as pinned by the
provisioner test suite. -/
def UErr.message : UErr → String
  | .noChange => "Cannot add or remove 0 units"
  | .noDeploysYet => "New units can only be added after the first deployment"
  | .tooMany n avail =>
      "cannot remove " ++ toString n ++ " units, only " ++
        toString avail ++ " available"
  | .createFailed => "error in docker node"
  | .routesNotRemoved => "error removing routes, units weren't removed"
  | .unbindFailed => "error unbinding units"

/-- Outcomes of the external calls made by a unit-change operation:
whether the i-th container creation+start succeeds, the id assigned to
the i-th created container, whether removing the route of a given
container fails, and whether unbinding a given unit fails. -/
structure UEnv where
  createOk : Nat → Bool
  newId : Nat → String
  routeRemoveFails : String → Bool
  unbindFails : String → Bool

/-- Remove from the record store every record whose id is in `ids`. -/
def removeRecords (records : List Container) (ids : List String) :
    List Container :=
  records.filter (fun c => c.id ∉ ids)

/-- Modelled from the spec: the container-creation stage of AddUnits
(§4.5 action 2; the engine implementation is not part of the source
excerpt, only its tests are).  Containers are created and started one
by one, each being inserted remote-side and into the record store with
status Building; on the first failure the backward path removes every
container created so far from both sides and the original error is
returned. -/
def createLoop (env : UEnv) (app process : String) :
    List Nat → State → List String → Option UErr × State × List String
  | [], st, created => (none, st, created)
  | i :: rest, st, created =>
    if env.createOk i then
      let id := env.newId i
      createLoop env app process rest
        { st with
          records := st.records ++ [⟨id, app, process, "building"⟩],
          remote := st.remote ++ [id] }
        (created ++ [id])
    else
      (some .createFailed,
        { st with
          records := removeRecords st.records created,
          remote := st.remote.filter (fun x => x ∉ created) },
        created)

/-- Modelled from the spec: `AddUnits(app, quantity, process)` (§4.5 and
§4.8).  A zero-quantity call fails fast with ErrNoChange before any
side effect; an app with zero prior deploys cannot scale up; otherwise
the creation stage runs with rollback-on-failure.  On success the list
of new container ids is returned. -/
def addUnits (env : UEnv) (st : State) (app process : String)
    (deploys : Nat) (quantity : Nat) :
    Except UErr (List String) × State :=
  if quantity = 0 then (.error .noChange, st)
  else if deploys = 0 then (.error .noDeploysYet, st)
  else
    match createLoop env app process (List.range quantity) st [] with
    | (some e, st', _) => (.error e, st')
    | (none, st', created) => (.ok created, st')

/-- Modelled from the spec: the route-removal stage of a scale-down
(§4.5 action 5 as constrained by the §8 property and scenario 5: routes
of all to-be-removed containers are removed as one reversible stage
before any unbinding or container removal).  On a failure the routes
already removed are re-added and the stage reports failure. -/
def removeRoutesLoop (env : UEnv) :
    List String → List String → List String →
      Except (List String) (List String)
  | [], routes, _ => .ok routes
  | id :: rest, routes, removed =>
    if env.routeRemoveFails id then .error (routes ++ removed)
    else removeRoutesLoop env rest (routes.erase id) (removed ++ [id])

/-- Modelled from the spec: `RemoveUnits(app, quantity, process)` (§4.5
and §4.8).  A zero-quantity call fails fast with ErrNoChange; asking
for more units than the process has fails with a "only N available"
error and no change; otherwise the engine removes the routes of the
selected containers (reversible stage), then unbinds them, then removes
them remote-side and deletes their records.  A failure while removing a
route re-adds the removed routes and leaves records and bindings
untouched. -/
def removeUnits (env : UEnv) (st : State) (app process : String)
    (quantity : Nat) : Option UErr × State :=
  if quantity = 0 then (some .noChange, st)
  else
    let avail := st.records.filter
      (fun c => c.appName = app ∧ (process = "" ∨ c.process = process))
    if avail.length < quantity then
      (some (.tooMany quantity avail.length), st)
    else
      let toRemove := (avail.take quantity).map (fun c => c.id)
      match removeRoutesLoop env toRemove st.routes [] with
      | .error restoredRoutes =>
        (some .routesNotRemoved, { st with routes := restoredRoutes })
      | .ok routes' =>
        if toRemove.any env.unbindFails then
          -- backward of the route stage re-adds all removed routes
          (some .unbindFailed, { st with routes := routes' ++ toRemove })
        else
          (none,
            { records := removeRecords st.records toRemove,
              remote := st.remote.filter (fun x => x ∉ toRemove),
              routes := routes',
              binds := st.binds.filter (fun x => x ∉ toRemove) })

end Units

/-! ## Deploy and the image catalog -/

namespace Deploy

/-- An image tag (spec §6: application tags `app-<name>:v<N>` with `N`
increasing monotonically per app, and the base platform image
`<platform>:latest`); the tag format is abstracted to its two shapes,
keeping the version number. -/
inductive ImgTag where
  | platform
  | appv (n : Nat)
  deriving DecidableEq, Repr

/-- The image state of one application: the images present in the
registry/cluster, and the catalog's ordered (oldest-first) list of the
app's image tags. -/
structure IState where
  registry : List ImgTag
  appImages : List ImgTag
  deriving DecidableEq, Repr

/-- The app's current image tag: the newest tag of the catalog. -/
def currentTag (st : IState) : Option ImgTag :=
  st.appImages.getLast?

/-- Errors of a deploy, by failing stage. -/
inductive DErr where
  | buildContainerFailed
  | buildFailed
  | startFailed
  deriving DecidableEq, Repr

/-- Outcomes of the external calls made by a deploy: whether the build
container can be created, whether the image build/commit succeeds, and
whether starting the new units (create, start, route, bind) succeeds. -/
structure DEnv where
  buildContainerOk : Bool
  buildOk : Bool
  startOk : Bool
  deriving DecidableEq, Repr

/-- Add an image to the registry unless already present. -/
def addImage (l : List ImgTag) (t : ImgTag) : List ImgTag :=
  if t ∈ l then l else l ++ [t]

/-- Modelled from the spec: `Deploy` (§4.8) with image-history pruning
(§4.2, §8; the provisioner implementation is not part of the source
excerpt, only its tests are).  The deploy creates a build container,
builds/commits the new image into the registry, starts the new units,
and only on success appends the new tag to the catalog and erases the
app images that fall outside the configured history size `histSize`
(keeping the `histSize` most recent).  On any failure the pipeline
rolls back the units but never deletes an image and never touches the
catalog. -/
def deploy (env : DEnv) (histSize : Nat) (st : IState) (newTag : ImgTag) :
    Except DErr Unit × IState :=
  if !env.buildContainerOk then (.error .buildContainerFailed, st)
  else if !env.buildOk then (.error .buildFailed, st)
  else
    let reg1 := addImage st.registry newTag
    if !env.startOk then (.error .startFailed, { st with registry := reg1 })
    else
      let imgs := st.appImages ++ [newTag]
      let overflow := imgs.length - histSize
      let dropped := imgs.take overflow
      (.ok (),
        { registry := reg1.filter (fun t => t ∉ dropped),
          appImages := imgs.drop overflow })

/-- An environment in which every deploy stage succeeds. -/
def allOk : DEnv := ⟨true, true, true⟩

/-- The app tags of the first `n` deploys, oldest first:
`[appv 1, …, appv n]`. -/
def tagList (n : Nat) : List ImgTag :=
  (List.range n).map (fun i => ImgTag.appv (i + 1))

/-- The initial image state of an app: the base platform image is in the
registry and the app has no images yet. -/
def initState : IState := ⟨[ImgTag.platform], []⟩

/-- `n` successive successful deploys of the same app with history size
`histSize`, deploy `i` producing tag `appv i`. -/
def runDeploys (histSize : Nat) (n : Nat) : IState :=
  (List.range n).foldl
    (fun st i => (deploy allOk histSize st (ImgTag.appv (i + 1))).2)
    initState

end Deploy

/-! ## RegisterUnit -/

namespace Register

/-- Container status (spec §3 invariant (ii)). -/
inductive Status where
  | building
  | created
  | starting
  | started
  | stopped
  | error
  | asleep
  deriving DecidableEq, Repr

/-- The container-record fields touched by `RegisterUnit`: id, status,
internal ip and the build-image tag of a deploy-produced container. -/
structure RContainer where
  id : String
  status : Status
  ip : String
  buildingImage : String
  deriving DecidableEq, Repr

/-- The state touched by `RegisterUnit`: the container record store and
the per-image custom data deposited by running units (keyed by image
tag). -/
structure RState where
  records : List RContainer
  imageData : List (String × String)
  deriving DecidableEq, Repr

/-- Store a registration payload as the custom data of an image tag,
replacing any previous payload for that tag. -/
def saveCustomData (data : List (String × String)) (tag payload : String) :
    List (String × String) :=
  (data.filter (fun p => p.1 ≠ tag)) ++ [(tag, payload)]

/-- `RegisterUnit` errors: an unknown unit id. -/
inductive RErr where
  | unitNotFound
  deriving DecidableEq, Repr

/-- Modelled from the spec: `RegisterUnit(unit, payload)` (§4.8; the
provisioner implementation is not part of the source excerpt, only its
tests are).  The container is looked up by the unit's id; an unknown id
is an error.  If the container's status is Building, the payload (when
present) is stored into the building-image's custom data and the record
is left unchanged; otherwise the status is promoted to Started and the
record's ip is refreshed from inspection. -/
def registerUnit (inspectIp : String → String) (st : RState)
    (unitId : String) (payload : Option String) :
    Except RErr Unit × RState :=
  match st.records.find? (fun c => c.id = unitId) with
  | none => (.error .unitNotFound, st)
  | some c =>
    if c.status = .building then
      match payload with
      | none => (.ok (), st)
      | some d =>
        (.ok (),
          { st with imageData := saveCustomData st.imageData c.buildingImage d })
    else
      (.ok (),
        { st with
          records := st.records.map (fun r =>
            if r.id = unitId then
              { r with status := .started, ip := inspectIp r.id }
            else r) })

/-- Look up the stored custom data of an image tag. -/
def lookupData (data : List (String × String)) (tag : String) : Option String :=
  (data.find? (fun p => p.1 = tag)).map Prod.snd

end Register

end Tsuru

open Tsuru

/-! ## Theorems -/

/-- C4: for every error raised during a general operation on an existing
container (image pull, inspect, exec), the healer counts it toward node
suspicion if and only if it is a network-class error; application-level
errors do not count.  For every error raised during container creation,
any failure counts toward suspicion. -/
theorem healer_suspicion_scoping :
    ∀ (s : Nat) (e : Healer.NodeOpError) (k : Healer.NetErrKind) (m : String),
      Healer.recordFailure s .creation e = s + 1 ∧
      Healer.recordFailure s .general (.network k) = s + 1 ∧
      Healer.recordFailure s .general (.application m) = s ∧
      (Healer.countsTowardSuspicion .general e = true ↔ e.isNetwork = true) ∧
      Healer.countsTowardSuspicion .creation e = true := by
  intro s e k m
  exact ⟨rfl, rfl, rfl, Iff.rfl, rfl⟩

/-- C6: the `fixContainers` reconciliation pass inspects every container
record by id; a record whose inspection reports a non-empty ip and a
non-empty host port is updated to the inspected ip and host port, while
a record whose inspection reports an empty ip or an empty host port is
left completely unchanged. -/
theorem fixContainers_reconciliation :
    ∀ (records : List Fix.ContRecord) (inspect : String → Fix.Inspection)
      (c : Fix.ContRecord) (insp : Fix.Inspection),
      Fix.fixContainers records inspect =
        records.map (fun r => Fix.fixContainer r (inspect r.id)) ∧
      (insp.ip ≠ "" → insp.hostPort ≠ "" →
        Fix.fixContainer c insp =
          { c with ip := insp.ip, hostPort := insp.hostPort }) ∧
      (insp.ip = "" ∨ insp.hostPort = "" → Fix.fixContainer c insp = c) := by
  intro records inspect c insp
  refine ⟨rfl, ?_, ?_⟩
  · intro h1 h2
    simp [Fix.fixContainer, h1, h2]
  · intro h
    simp [Fix.fixContainer, h]

/-- Witness for C6: the record of spec scenario 6 (IP `127.0.0.4`,
HostPort `9025`) is updated to the inspected values (`127.0.0.9`,
`9999`), and a record inspected with an empty host port is left
unchanged. -/
theorem fixContainers_reconciliation_witness :
    Fix.fixContainer
        ⟨"9930c24f1c4x", "makea", "127.0.0.4", "9025", "127.0.0.1", "started"⟩
        ⟨"127.0.0.9", "9999"⟩ =
      ⟨"9930c24f1c4x", "makea", "127.0.0.9", "9999", "127.0.0.1", "started"⟩ ∧
    Fix.fixContainer
        ⟨"9930c24f1c4x", "makea", "", "", "127.0.0.1", "started"⟩ ⟨"", ""⟩ =
      ⟨"9930c24f1c4x", "makea", "", "", "127.0.0.1", "started"⟩ := by
  have h := fixContainers_reconciliation []
    (fun _ => ⟨"", ""⟩)
    ⟨"9930c24f1c4x", "makea", "127.0.0.4", "9025", "127.0.0.1", "started"⟩
    ⟨"127.0.0.9", "9999"⟩
  have h' := fixContainers_reconciliation []
    (fun _ => ⟨"", ""⟩)
    ⟨"9930c24f1c4x", "makea", "", "", "127.0.0.1", "started"⟩
    ⟨"", ""⟩
  exact ⟨h.2.1 (by decide) (by decide), h'.2.2 (by decide)⟩

/-- C8: every zero-quantity unit-change call — `AddUnits` with quantity 0
and `RemoveUnits` with quantity 0 — fails fast with ErrNoChange and
returns the state untouched (no side effect). -/
theorem zero_quantity_unit_change_fails_fast :
    ∀ (env : Units.UEnv) (st : Units.State) (app process : String)
      (deploys : Nat),
      Units.addUnits env st app process deploys 0 = (.error .noChange, st) ∧
      Units.removeUnits env st app process 0 = (some .noChange, st) := by
  intro env st app process deploys
  exact ⟨rfl, rfl⟩

/-- C7: a `RemoveUnits` call asking for more units of a process than
currently exist fails with an error naming the requested quantity and
the number actually available, and makes no change to the state. -/
theorem removeUnits_too_many_no_change
    (env : Units.UEnv) (st : Units.State) (app process : String) (q : Nat)
    (hq : q ≠ 0)
    (hlen : (st.records.filter
      (fun c => c.appName = app ∧ (process = "" ∨ c.process = process))).length < q) :
    Units.removeUnits env st app process q =
      (some (.tooMany q (st.records.filter
        (fun c => c.appName = app ∧ (process = "" ∨ c.process = process))).length),
       st) := by
  unfold Units.removeUnits
  simp only [if_neg hq]
  rw [if_pos hlen]

/-- If the route-removal stage fails, every route that was present when
the stage started, and every route the stage had already removed, is
present in the restored route list. -/
lemma removeRoutesLoop_error_superset (env : Units.UEnv) :
    ∀ (pending routes removed out : List String),
      Units.removeRoutesLoop env pending routes removed = .error out →
      ∀ x, (x ∈ routes ∨ x ∈ removed) → x ∈ out := by
  intro pending
  induction pending with
  | nil =>
    intro routes removed out h
    simp [Units.removeRoutesLoop] at h
  | cons id rest ih =>
    intro routes removed out h x hx
    by_cases hf : env.routeRemoveFails id
    · simp [Units.removeRoutesLoop, hf] at h
      subst h
      rcases hx with hx | hx
      · exact List.mem_append_left _ hx
      · exact List.mem_append_right _ hx
    · simp only [Units.removeRoutesLoop, hf, if_false, Bool.false_eq_true] at h
      refine ih (routes.erase id) (removed ++ [id]) out h x ?_
      rcases hx with hx | hx
      · by_cases hxid : x = id
        · exact Or.inr (List.mem_append_right _ (by simp [hxid]))
        · exact Or.inl ((List.mem_erase_of_ne hxid).mpr hx)
      · exact Or.inr (List.mem_append_left _ hx)

/-- If the route-removal stage fails, the restored route list contains
only routes that were present when the stage started, routes it had
already removed, and routes it was asked to remove. -/
lemma removeRoutesLoop_error_subset (env : Units.UEnv) :
    ∀ (pending routes removed out : List String),
      Units.removeRoutesLoop env pending routes removed = .error out →
      ∀ x, x ∈ out → (x ∈ routes ∨ x ∈ removed ∨ x ∈ pending) := by
  intro pending
  induction pending with
  | nil =>
    intro routes removed out h
    simp [Units.removeRoutesLoop] at h
  | cons id rest ih =>
    intro routes removed out h x hx
    by_cases hf : env.routeRemoveFails id
    · simp [Units.removeRoutesLoop, hf] at h
      subst h
      rcases List.mem_append.mp hx with hx | hx
      · exact Or.inl hx
      · exact Or.inr (Or.inl hx)
    · simp only [Units.removeRoutesLoop, hf, if_false, Bool.false_eq_true] at h
      rcases ih (routes.erase id) (removed ++ [id]) out h x hx with hx' | hx' | hx'
      · exact Or.inl (List.mem_of_mem_erase hx')
      · rcases List.mem_append.mp hx' with hx'' | hx''
        · exact Or.inr (Or.inl hx'')
        · exact Or.inr (Or.inr (by simp at hx''; simp [hx'']))
      · exact Or.inr (Or.inr (List.mem_cons_of_mem _ hx'))

/-- C1: a `RemoveUnits` call that fails while removing a route changes
no state — every container record still exists, every route is still
present in the router (the route set is restored exactly, given the
router held a route for every recorded container), every unit is still
bound, the remote hosts are untouched — and the returned error reports
that routes could not be removed and units weren't removed. -/
theorem removeUnits_route_failure_preserves_state
    (env : Units.UEnv) (st : Units.State) (app process : String) (q : Nat)
    (hconsist : ∀ c ∈ st.records, c.id ∈ st.routes)
    (herr : (Units.removeUnits env st app process q).1 =
      some .routesNotRemoved) :
    (Units.removeUnits env st app process q).2.records = st.records ∧
    (Units.removeUnits env st app process q).2.remote = st.remote ∧
    (Units.removeUnits env st app process q).2.binds = st.binds ∧
    (Units.removeUnits env st app process q).2.routes.toFinset =
      st.routes.toFinset ∧
    Units.UErr.message .routesNotRemoved =
      "error removing routes, units weren't removed" := by
  by_cases hq : q = 0
  · simp [Units.removeUnits, hq] at herr
  by_cases hlen : (st.records.filter
      (fun c => c.appName = app ∧ (process = "" ∨ c.process = process))).length < q
  · unfold Units.removeUnits at herr
    simp only [if_neg hq] at herr
    rw [if_pos hlen] at herr
    simp at herr
  · have htoRemove : ∀ x ∈ (((st.records.filter
        (fun c => c.appName = app ∧ (process = "" ∨ c.process = process))).take q).map
          (fun c => c.id)), x ∈ st.routes := by
      intro x hx
      rcases List.mem_map.mp hx with ⟨c, hc, rfl⟩
      exact hconsist c (List.mem_of_mem_filter (List.mem_of_mem_take hc))
    unfold Units.removeUnits at herr ⊢
    simp only [if_neg hq] at herr ⊢
    rw [if_neg hlen] at herr ⊢
    split at herr
    · rename_i restored heq
      refine ⟨rfl, rfl, rfl, ?_, rfl⟩
      ext x
      simp only [List.mem_toFinset]
      constructor
      · intro hx
        rcases removeRoutesLoop_error_subset env _ _ _ _ heq x hx with
          hx' | hx' | hx'
        · exact hx'
        · simp at hx'
        · exact htoRemove x hx'
      · intro hx
        exact removeRoutesLoop_error_superset env _ _ _ _ heq x (Or.inl hx)
    · split at herr <;> simp at herr

/-- C2: a `Deploy` that fails deletes no image — the app's catalog (and
hence its current image tag) is unchanged and every image that was in
the registry before the deploy, in particular the previously current
one, is still there. -/
theorem deploy_failure_deletes_no_image
    (env : Deploy.DEnv) (histSize : Nat) (st : Deploy.IState)
    (tag : Deploy.ImgTag) (e : Deploy.DErr)
    (herr : (Deploy.deploy env histSize st tag).1 = .error e) :
    (Deploy.deploy env histSize st tag).2.appImages = st.appImages ∧
    Deploy.currentTag (Deploy.deploy env histSize st tag).2 =
      Deploy.currentTag st ∧
    ∀ t ∈ st.registry, t ∈ (Deploy.deploy env histSize st tag).2.registry := by
  cases hbc : env.buildContainerOk
  · simp [Deploy.deploy, hbc, Deploy.currentTag]
  · cases hb : env.buildOk
    · simp [Deploy.deploy, hbc, hb, Deploy.currentTag]
    · cases hs : env.startOk
      · refine ⟨by simp [Deploy.deploy, hbc, hb, hs], ?_, ?_⟩
        · simp [Deploy.deploy, hbc, hb, hs, Deploy.currentTag]
        · intro t ht
          simp only [Deploy.deploy, hbc, hb, hs]
          unfold Deploy.addImage
          by_cases htag : tag ∈ st.registry
          · simpa [htag] using ht
          · simp only [htag, if_false]
            exact List.mem_append_left _ ht
      · simp [Deploy.deploy, hbc, hb, hs] at herr

/-- Witness for C2: a second deploy (tag v2) that fails while starting
the new units leaves the app's current tag at v1 and v1 still in the
registry (scenario of TestImageDeployFailureDoesntEraseImage). -/
theorem deploy_failure_deletes_no_image_witness :
    Deploy.currentTag
        (Deploy.deploy ⟨true, true, false⟩ 1
          ⟨[.platform, .appv 1], [.appv 1]⟩ (.appv 2)).2 =
      some (.appv 1) ∧
    Deploy.ImgTag.appv 1 ∈
      (Deploy.deploy ⟨true, true, false⟩ 1
        ⟨[.platform, .appv 1], [.appv 1]⟩ (.appv 2)).2.registry := by
  have h := deploy_failure_deletes_no_image ⟨true, true, false⟩ 1
    ⟨[.platform, .appv 1], [.appv 1]⟩ (.appv 2) .startFailed rfl
  exact ⟨h.2.1.trans rfl, h.2.2 _ (by decide)⟩

/-- The app tags of the first `n` deploys, one more deploy appended. -/
lemma tagList_succ (n : Nat) :
    Deploy.tagList (n + 1) = Deploy.tagList n ++ [.appv (n + 1)] := by
  simp [Deploy.tagList, List.range_succ]

/-- Membership in the tag history: `appv i` was produced by the first
`m` deploys exactly when `1 ≤ i ≤ m`. -/
lemma mem_tagList {i m : Nat} :
    Deploy.ImgTag.appv i ∈ Deploy.tagList m ↔ 1 ≤ i ∧ i ≤ m := by
  simp only [Deploy.tagList, List.mem_map, List.mem_range,
    Deploy.ImgTag.appv.injEq]
  constructor
  · rintro ⟨j, hj, hji⟩
    omega
  · intro ⟨h1, h2⟩
    exact ⟨i - 1, by omega, by omega⟩

/-- The platform image is never an app tag. -/
lemma platform_not_mem_tagList (m : Nat) :
    Deploy.ImgTag.platform ∉ Deploy.tagList m := by
  simp [Deploy.tagList]

/-- The tag history has no duplicates. -/
lemma tagList_nodup (m : Nat) : (Deploy.tagList m).Nodup := by
  refine List.Nodup.map ?_ (List.nodup_range m)
  intro a b h
  have : a + 1 = b + 1 := by injection h
  omega

/-- Filtering out the members of the left half of an append, on a
duplicate-free list, leaves exactly the right half. -/
lemma filter_not_mem_left {α : Type} [DecidableEq α] (T D : List α)
    (h : (T ++ D).Nodup) :
    (T ++ D).filter (fun t => t ∉ T) = D := by
  rw [List.filter_append]
  have e1 : T.filter (fun t => t ∉ T) = [] :=
    List.filter_eq_nil_iff.mpr (fun a ha => by simp [ha])
  have e2 : D.filter (fun t => t ∉ T) = D := by
    apply List.filter_eq_self.mpr
    intro a ha
    rcases List.nodup_append.mp h with ⟨-, -, hdisj⟩
    have : a ∉ T := fun haT => hdisj haT ha
    simp [this]
  rw [e1, e2, List.nil_append]

/-- On a duplicate-free list, filtering out the members of its `d`-prefix
leaves its `d`-suffix. -/
lemma filter_not_mem_take {α : Type} [DecidableEq α] (l : List α) (d : Nat)
    (h : l.Nodup) :
    l.filter (fun t => t ∉ l.take d) = l.drop d := by
  have key := filter_not_mem_left (l.take d) (l.drop d)
    (by rw [List.take_append_drop]; exact h)
  rw [List.take_append_drop] at key
  exact key

/-- State invariant of `n` successful deploys with history size `K`: the
catalog holds exactly the most recent `K` tags (all tags when fewer
exist) and the registry is exactly the platform image plus the
catalog. -/
lemma runDeploys_spec (K : Nat) :
    ∀ n, (Deploy.runDeploys K n).appImages =
        (Deploy.tagList n).drop (n - K) ∧
      (Deploy.runDeploys K n).registry =
        Deploy.ImgTag.platform :: (Deploy.runDeploys K n).appImages := by
  intro n
  induction n with
  | zero =>
    constructor
    · simp [Deploy.runDeploys, Deploy.initState, Deploy.tagList]
    · simp [Deploy.runDeploys, Deploy.initState]
  | succ n ih =>
    obtain ⟨hA, hR⟩ := ih
    have hstep : Deploy.runDeploys K (n + 1) =
        (Deploy.deploy Deploy.allOk K (Deploy.runDeploys K n)
          (Deploy.ImgTag.appv (n + 1))).2 := by
      unfold Deploy.runDeploys
      rw [List.range_succ, List.foldl_append]
      rfl
    have hAsub : ∀ t ∈ (Deploy.runDeploys K n).appImages,
        t ∈ Deploy.tagList n := by
      rw [hA]; exact fun t ht => List.mem_of_mem_drop ht
    have hnew_not : Deploy.ImgTag.appv (n + 1) ∉
        (Deploy.runDeploys K n).appImages := by
      intro hmem
      have := mem_tagList.mp (hAsub _ hmem)
      omega
    have hplat_not : Deploy.ImgTag.platform ∉
        (Deploy.runDeploys K n).appImages :=
      fun hm => platform_not_mem_tagList n (hAsub _ hm)
    have hreg1 : Deploy.addImage (Deploy.runDeploys K n).registry
        (Deploy.ImgTag.appv (n + 1)) =
        Deploy.ImgTag.platform ::
          ((Deploy.runDeploys K n).appImages ++
            [Deploy.ImgTag.appv (n + 1)]) := by
      unfold Deploy.addImage
      rw [if_neg, hR, List.cons_append]
      rw [hR]
      simp only [List.mem_cons, not_or]
      exact ⟨fun h => Deploy.ImgTag.noConfusion h, hnew_not⟩
    have himgs_nodup :
        ((Deploy.runDeploys K n).appImages ++
          [Deploy.ImgTag.appv (n + 1)]).Nodup := by
      rw [List.nodup_append]
      refine ⟨?_, List.nodup_singleton _, ?_⟩
      · rw [hA]
        exact (List.drop_sublist _ _).nodup (tagList_nodup n)
      · intro a ha hb
        rw [List.mem_singleton] at hb
        exact hnew_not (hb ▸ ha)
    have hplat_not_imgs : Deploy.ImgTag.platform ∉
        ((Deploy.runDeploys K n).appImages ++
          [Deploy.ImgTag.appv (n + 1)]) := by
      simp only [List.mem_append, List.mem_singleton, not_or]
      exact ⟨hplat_not, fun h => Deploy.ImgTag.noConfusion h⟩
    have hlt : (Deploy.tagList n).length = n := by simp [Deploy.tagList]
    have hlenA : ((Deploy.tagList n).drop (n - K)).length = n - (n - K) := by
      rw [List.length_drop, hlt]
    have hcatalog :
        ((Deploy.runDeploys K n).appImages ++
            [Deploy.ImgTag.appv (n + 1)]).drop
          (((Deploy.runDeploys K n).appImages ++
            [Deploy.ImgTag.appv (n + 1)]).length - K) =
        (Deploy.tagList (n + 1)).drop (n + 1 - K) := by
      rw [hA, tagList_succ, List.drop_append_eq_append_drop,
        List.drop_append_eq_append_drop, List.drop_drop]
      congr 1
      · congr 1
        rw [List.length_append, hlenA]
        simp only [List.length_singleton]
        omega
      · congr 1
        rw [List.length_append, hlenA, hlt]
        simp only [List.length_singleton]
        omega
    have hfilter :
        ((Deploy.runDeploys K n).appImages ++
            [Deploy.ImgTag.appv (n + 1)]).filter
          (fun t => t ∉
            ((Deploy.runDeploys K n).appImages ++
              [Deploy.ImgTag.appv (n + 1)]).take
              (((Deploy.runDeploys K n).appImages ++
                [Deploy.ImgTag.appv (n + 1)]).length - K)) =
        ((Deploy.runDeploys K n).appImages ++
            [Deploy.ImgTag.appv (n + 1)]).drop
          (((Deploy.runDeploys K n).appImages ++
            [Deploy.ImgTag.appv (n + 1)]).length - K) :=
      filter_not_mem_take _ _ himgs_nodup
    rw [hstep]
    simp only [Deploy.deploy, Deploy.allOk, Bool.not_true, Bool.false_eq_true,
      if_false, hreg1]
    rw [List.filter_cons_of_pos, hfilter, hcatalog]
    · exact ⟨rfl, rfl⟩
    · exact decide_eq_true
        (fun hmem => hplat_not_imgs (List.mem_of_mem_take hmem))

/-- C5: with image-history-size `K`, after `N > K` successful deploys of
the same app at most `K + 1` image tags remain: the registry holds
exactly the base platform image plus the `K` most recent app tags, and
every older app tag has been removed. -/
theorem deploy_image_history_bound (K N : Nat) (hK : 1 <= K) (hN : K < N) :
    (Deploy.runDeploys K N).appImages = (Deploy.tagList N).drop (N - K) ∧
    (Deploy.runDeploys K N).appImages.length = K ∧
    (Deploy.runDeploys K N).registry =
      Deploy.ImgTag.platform :: (Deploy.runDeploys K N).appImages ∧
    (Deploy.runDeploys K N).registry.length = K + 1 ∧
    (∀ i, 1 <= i → i <= N - K →
      Deploy.ImgTag.appv i ∉ (Deploy.runDeploys K N).registry) := by
  obtain ⟨hA, hR⟩ := runDeploys_spec K N
  have hlt : (Deploy.tagList N).length = N := by simp [Deploy.tagList]
  have hAlen : (Deploy.runDeploys K N).appImages.length = K := by
    rw [hA, List.length_drop, hlt]
    omega
  refine ⟨hA, hAlen, hR, ?_, ?_⟩
  · rw [hR, List.length_cons, hAlen]
  · intro i h1 h2
    rw [hR, hA]
    simp only [List.mem_cons, not_or]
    refine ⟨fun h => Deploy.ImgTag.noConfusion h, ?_⟩
    intro hmem
    have htake : Deploy.ImgTag.appv i ∈ (Deploy.tagList N).take (N - K) := by
      have hm : Deploy.ImgTag.appv i ∈ Deploy.tagList (N - K) :=
        mem_tagList.mpr ⟨h1, h2⟩
      have htk : (Deploy.tagList N).take (N - K) = Deploy.tagList (N - K) := by
        unfold Deploy.tagList
        rw [← List.map_take, List.take_range]
        have hmin : min (N - K) N = N - K := by omega
        rw [hmin]
      rw [htk]
      exact hm
    have hnd := tagList_nodup N
    rw [← List.take_append_drop (N - K) (Deploy.tagList N)] at hnd
    rcases List.nodup_append.mp hnd with ⟨-, -, hdisj⟩
    exact hdisj htake hmem

/-- Witness for C5: history size 1, two successful deploys — the
registry ends with exactly two images (the platform image and v2) and
v1 is gone (spec scenario 2). -/
theorem deploy_image_history_bound_witness :
    (Deploy.runDeploys 1 2).registry.length = 1 + 1 ∧
    Deploy.ImgTag.appv 1 ∉ (Deploy.runDeploys 1 2).registry := by
  have h := deploy_image_history_bound 1 2 (by decide) (by decide)
  exact ⟨h.2.2.2.1, h.2.2.2.2 1 (by decide) (by decide)⟩

/-- Pulling a freshly appended unit out again restores the original
list. -/
lemma pullAll_append_self (units : List String) (u : String)
    (h : u ∉ units) :
    Service.pullAll (units ++ [u]) u = units := by
  unfold Service.pullAll
  rw [List.filter_append]
  have e1 : units.filter (fun x => x ≠ u) = units := by
    apply List.filter_eq_self.mpr
    intro x hx
    have : x ≠ u := fun he => h (he ▸ hx)
    simp [this]
  have e2 : ([u] : List String).filter (fun x => x ≠ u) = [] := by simp
  rw [e1, e2, List.append_nil]

/-- Appending a unit back after pulling it restores the original set of
units (though not the original list). -/
lemma toFinset_pull_push (units : List String) (u : String)
    (h : u ∈ units) :
    ((units.filter (fun x => x ≠ u)) ++ [u]).toFinset = units.toFinset := by
  ext x
  simp only [List.toFinset_append, Finset.mem_union, List.mem_toFinset,
    List.mem_filter, List.mem_singleton]
  constructor
  · rintro (⟨hx, -⟩ | rfl)
    · exact hx
    · exact h
  · intro hx
    by_cases hxu : x = u
    · exact Or.inr hxu
    · exact Or.inl ⟨hx, by simp [hxu]⟩

/-- A pulled unit is no longer in the list. -/
lemma not_mem_pullAll (units : List String) (u : String) :
    u ∉ Service.pullAll units u := by
  simp [Service.pullAll]

/-- Counterexample to C10 as stated: `UnbindUnit` on stored units
`["u1", "u2"]` whose remote endpoint call fails returns an error, yet
the stored Units list afterwards is `["u2", "u1"]` — same set, but not
"the same as before the call": the rollback `$addToSet` re-appends the
unit at the end instead of restoring its position. -/
theorem unbindUnit_error_reorders_list :
    (Service.unbindUnit ⟨true, true, false, true⟩ (some ["u1", "u2"]) "u1").1 =
      .error .remoteUnbindErr ∧
    (Service.unbindUnit ⟨true, true, false, true⟩ (some ["u1", "u2"]) "u1").2 =
      some ["u2", "u1"] ∧
    (some ["u2", "u1"] : Service.UnitsDoc) ≠ some ["u1", "u2"] := by
  refine ⟨rfl, rfl, ?_⟩
  decide

/-- C10 (amended): `BindUnit` and `UnbindUnit` are atomic with respect
to the stored unit *set* of a service instance: whenever either returns
an error, the set of units stored for the instance equals the set
before the call, provided that when the remote endpoint call fails the
rollback store update itself succeeds (its failure is only logged, and
the rollback may re-append the unit at a different list position);
binding a unit already in the set fails with ErrUnitAlreadyBound and
unbinding a unit not in the set fails with ErrUnitNotBound, both
leaving the store untouched. -/
theorem bindUnit_unbindUnit_atomic_on_unit_set
    (env : Service.BindEnv) (units : List String) (u : String) :
    (env.rollbackConnOk = true →
      (∀ e, (Service.bindUnit env (some units) u).1 = .error e →
        Service.unitSet (Service.bindUnit env (some units) u).2 =
          Service.unitSet (some units)) ∧
      (∀ e, (Service.unbindUnit env (some units) u).1 = .error e →
        Service.unitSet (Service.unbindUnit env (some units) u).2 =
          Service.unitSet (some units))) ∧
    (env.clientOk = true → env.connOk = true →
      (u ∈ units → Service.bindUnit env (some units) u =
        (.error .unitAlreadyBound, some units)) ∧
      (u ∉ units → Service.unbindUnit env (some units) u =
        (.error .unitNotBound, some units))) := by
  obtain ⟨co, cn, eo, ro⟩ := env
  constructor
  · intro hro
    have hro' : ro = true := hro
    subst hro'
    constructor
    · intro e he
      cases co with
      | false => rfl
      | true =>
        cases cn with
        | false => rfl
        | true =>
          by_cases hu : u ∈ units
          · simp [Service.bindUnit, hu]
          · cases eo with
            | true => simp [Service.bindUnit, hu] at he
            | false =>
              simp only [Service.bindUnit, Service.addToSet, hu]
              simp [pullAll_append_self units u hu]
    · intro e he
      cases co with
      | false => rfl
      | true =>
        cases cn with
        | false => rfl
        | true =>
          by_cases hu : u ∈ units
          · cases eo with
            | true => simp [Service.unbindUnit, hu] at he
            | false =>
              have hnm := not_mem_pullAll units u
              simp only [Service.unbindUnit, Service.addToSet, hu,
                Service.pullAll] at hnm ⊢
              simp only [hnm, if_true, if_false]
              simp [Service.unitSet]
              ext x
              simp only [Finset.mem_union, Finset.mem_filter,
                List.mem_toFinset, Finset.mem_singleton]
              constructor
              · rintro (⟨hx, -⟩ | rfl)
                · exact hx
                · exact hu
              · intro hx
                by_cases hxu : x = u
                · exact Or.inr hxu
                · exact Or.inl ⟨hx, hxu⟩
          · simp [Service.unbindUnit, hu]
  · intro hco hcn
    have hco' : co = true := hco
    have hcn' : cn = true := hcn
    subst hco' hcn'
    constructor
    · intro hu
      simp [Service.bindUnit, hu]
    · intro hu
      simp [Service.unbindUnit, hu]

/-- Witness for the amended C10: a failed unbind (endpoint down,
rollback succeeding) preserves the stored unit set, and binding an
already-bound unit fails with ErrUnitAlreadyBound leaving the store
untouched. -/
theorem bindUnit_unbindUnit_atomic_on_unit_set_witness :
    Service.unitSet
        (Service.unbindUnit ⟨true, true, false, true⟩
          (some ["u1", "u2"]) "u1").2 =
      Service.unitSet (some ["u1", "u2"]) ∧
    Service.bindUnit ⟨true, true, true, true⟩ (some ["u1"]) "u1" =
      (.error .unitAlreadyBound, some ["u1"]) := by
  have h1 := (bindUnit_unbindUnit_atomic_on_unit_set ⟨true, true, false, true⟩
    ["u1", "u2"] "u1").1 rfl
  have h2 := (bindUnit_unbindUnit_atomic_on_unit_set ⟨true, true, true, true⟩
    ["u1"] "u1").2 rfl rfl
  exact ⟨h1.2 .remoteUnbindErr rfl, h2.1 (by decide)⟩

/-- Saving custom data for a tag makes it the data found for that tag. -/
lemma lookupData_saveCustomData (data : List (String × String))
    (tag payload : String) :
    Register.lookupData (Register.saveCustomData data tag payload) tag =
      some payload := by
  unfold Register.lookupData Register.saveCustomData
  rw [List.find?_append]
  have hnone : (data.filter (fun p => p.1 ≠ tag)).find?
      (fun p => p.1 = tag) = none := by
    apply List.find?_eq_none.mpr
    intro x hx
    rcases List.mem_filter.mp hx with ⟨-, hxt⟩
    simpa using hxt
  rw [hnone]
  simp

/-- C9: `RegisterUnit(unit, payload)` — an unknown unit id is an error;
a container whose status is Building keeps its record untouched (status
stays Building, ip untouched) while the payload is stored as the
building image's custom data; any other container is promoted to
Started with its ip refreshed from inspection. -/
theorem registerUnit_spec
    (inspectIp : String → String) (st : Register.RState) (uid : String)
    (payload : Option String) :
    (st.records.find? (fun c => c.id = uid) = none →
      Register.registerUnit inspectIp st uid payload =
        (.error .unitNotFound, st)) ∧
    (∀ c, st.records.find? (fun c => c.id = uid) = some c →
      c.status = .building →
      (Register.registerUnit inspectIp st uid payload).1 = .ok () ∧
      (Register.registerUnit inspectIp st uid payload).2.records =
        st.records ∧
      (∀ d, payload = some d →
        Register.lookupData
          (Register.registerUnit inspectIp st uid payload).2.imageData
          c.buildingImage = some d)) ∧
    (∀ c, st.records.find? (fun c => c.id = uid) = some c →
      c.status ≠ .building →
      (Register.registerUnit inspectIp st uid payload).1 = .ok () ∧
      (Register.registerUnit inspectIp st uid payload).2.imageData =
        st.imageData ∧
      (Register.registerUnit inspectIp st uid payload).2.records.find?
        (fun c => c.id = uid) =
        some { c with status := .started, ip := inspectIp c.id }) := by
  refine ⟨?_, ?_, ?_⟩
  · intro hnone
    unfold Register.registerUnit
    rw [hnone]
  · intro c hfind hbuild
    unfold Register.registerUnit
    rw [hfind]
    simp only [hbuild, if_true]
    cases payload with
    | none => exact ⟨rfl, rfl, fun d hd => by cases hd⟩
    | some d =>
      refine ⟨rfl, rfl, ?_⟩
      intro d' hd'
      cases hd'
      exact lookupData_saveCustomData st.imageData c.buildingImage d
  · intro c hfind hnb
    have hcid : c.id = uid := by
      have := List.find?_some hfind
      simpa using this
    unfold Register.registerUnit
    simp only [hfind]
    rw [if_neg hnb]
    refine ⟨rfl, rfl, ?_⟩
    show (st.records.map (fun r =>
        if r.id = uid then { r with status := .started, ip := inspectIp r.id }
        else r)).find? (fun c => c.id = uid) = _
    rw [List.find?_map]
    have hcomp : ((fun c : Register.RContainer => decide (c.id = uid)) ∘
        (fun r => if r.id = uid then
          { r with status := .started, ip := inspectIp r.id } else r)) =
        (fun c : Register.RContainer => decide (c.id = uid)) := by
      funext r
      by_cases hr : r.id = uid <;> simp [hr]
    rw [hcomp, hfind]
    simp [hcid]

/-- Witness for C9: a Building container keeps status Building and gets
its payload stored (TestRegisterUnitBuildingContainer /
TestRegisterUnitSavesCustomData); a Starting container is promoted to
Started with its ip refreshed (TestRegisterUnit); an unknown id is an
error. -/
theorem registerUnit_spec_witness :
    (Register.registerUnit (fun _ => "10.0.0.1")
        ⟨[⟨"c1", .building, "xinvalidx", "my-building-image"⟩], []⟩
        "c1" (some "value")).2.records =
      [⟨"c1", .building, "xinvalidx", "my-building-image"⟩] ∧
    Register.lookupData
      (Register.registerUnit (fun _ => "10.0.0.1")
        ⟨[⟨"c1", .building, "xinvalidx", "my-building-image"⟩], []⟩
        "c1" (some "value")).2.imageData "my-building-image" = some "value" ∧
    (Register.registerUnit (fun _ => "10.0.0.1")
        ⟨[⟨"c1", .starting, "xinvalidx", ""⟩], []⟩
        "c1" none).2.records.find? (fun c => c.id = "c1") =
      some ⟨"c1", .started, "10.0.0.1", ""⟩ ∧
    Register.registerUnit (fun _ => "10.0.0.1")
        ⟨[⟨"c1", .starting, "xinvalidx", ""⟩], []⟩ "zzz" none =
      (.error .unitNotFound, ⟨[⟨"c1", .starting, "xinvalidx", ""⟩], []⟩) := by
  have h1 := registerUnit_spec (fun _ => "10.0.0.1")
    ⟨[⟨"c1", .building, "xinvalidx", "my-building-image"⟩], []⟩
    "c1" (some "value")
  have h2 := registerUnit_spec (fun _ => "10.0.0.1")
    ⟨[⟨"c1", .starting, "xinvalidx", ""⟩], []⟩ "c1" none
  have h3 := registerUnit_spec (fun _ => "10.0.0.1")
    ⟨[⟨"c1", .starting, "xinvalidx", ""⟩], []⟩ "zzz" none
  refine ⟨(h1.2.1 ⟨"c1", .building, "xinvalidx", "my-building-image"⟩
      (by decide) rfl).2.1,
    (h1.2.1 ⟨"c1", .building, "xinvalidx", "my-building-image"⟩
      (by decide) rfl).2.2 "value" rfl,
    ?_, h3.1 (by decide)⟩
  exact (h2.2.2 ⟨"c1", .starting, "xinvalidx", ""⟩ (by decide) (by decide)).2.2

/-- If the container-creation loop fails, it restores the record store
and the remote container set to what they were before the loop started,
provided no pre-existing record or remote container collides with the
ids handed out for the new containers. -/
lemma createLoop_error_rollback (env : Units.UEnv) (app process : String) :
    ∀ (pending : List Nat) (recsO : List Units.Container) (remO : List String)
      (added : List Units.Container) (created : List String)
      (routes binds : List String) (e : Units.UErr)
      (st' : Units.State) (created' : List String),
      created = added.map (fun c => c.id) →
      (∀ c ∈ recsO, c.id ∉ created) →
      (∀ x ∈ remO, x ∉ created) →
      (∀ i ∈ pending,
        (∀ c ∈ recsO, c.id ≠ env.newId i) ∧ env.newId i ∉ remO) →
      Units.createLoop env app process pending
        ⟨recsO ++ added, remO ++ created, routes, binds⟩ created =
        (some e, st', created') →
      st' = ⟨recsO, remO, routes, binds⟩ := by
  intro pending
  induction pending with
  | nil =>
    intro recsO remO added created routes binds e st' created'
      hmap hrecs hrem hpend h
    simp [Units.createLoop] at h
  | cons i rest ih =>
    intro recsO remO added created routes binds e st' created'
      hmap hrecs hrem hpend h
    by_cases hok : env.createOk i
    · simp only [Units.createLoop, hok, if_true] at h
      rw [List.append_assoc, List.append_assoc] at h
      refine ih recsO remO (added ++ [⟨env.newId i, app, process, "building"⟩])
        (created ++ [env.newId i]) routes binds e st' created' ?_ ?_ ?_ ?_ h
      · simp [hmap]
      · intro c hc
        simp only [List.mem_append, List.mem_singleton]
        push_neg
        exact ⟨hrecs c hc, (hpend i (List.mem_cons_self i rest)).1 c hc⟩
      · intro x hx
        simp only [List.mem_append, List.mem_singleton]
        push_neg
        refine ⟨hrem x hx, ?_⟩
        intro hxe
        exact (hpend i (List.mem_cons_self i rest)).2 (hxe ▸ hx)
      · intro j hj
        exact hpend j (List.mem_cons_of_mem _ hj)
    · simp only [Units.createLoop, hok, if_false, Bool.false_eq_true,
        Prod.mk.injEq] at h
      obtain ⟨-, hst, -⟩ := h
      subst hst
      have h1 : (recsO ++ added).filter (fun c => c.id ∉ created) = recsO := by
        rw [List.filter_append]
        have e1 : recsO.filter (fun c => c.id ∉ created) = recsO :=
          List.filter_eq_self.mpr (fun c hc => by simpa using hrecs c hc)
        have e2 : added.filter (fun c => c.id ∉ created) = [] := by
          apply List.filter_eq_nil_iff.mpr
          intro c hc
          have hmem : c.id ∈ created :=
            hmap.symm ▸ List.mem_map_of_mem (fun c => c.id) hc
          simp [hmem]
        rw [e1, e2, List.append_nil]
      have h2 : (remO ++ created).filter (fun x => x ∉ created) = remO := by
        rw [List.filter_append]
        have e1 : remO.filter (fun x => x ∉ created) = remO :=
          List.filter_eq_self.mpr (fun x hx => by simpa using hrem x hx)
        have e2 : created.filter (fun x => x ∉ created) = [] := by
          apply List.filter_eq_nil_iff.mpr
          intro x hx
          simp [hx]
        rw [e1, e2, List.append_nil]
      simp only [Units.removeRecords]
      rw [h1, h2]

/-- C3: an `AddUnits` operation in which creating or starting any single
container fails removes every container created by that operation on
both the remote host and in the record store: the record store and the
remote container set afterwards equal the sets before the operation
(given the ids handed out for new containers are fresh). -/
theorem addUnits_failure_rolls_back
    (env : Units.UEnv) (st : Units.State) (app process : String)
    (deploys q : Nat)
    (hfresh : ∀ i, i < q →
      (∀ c ∈ st.records, c.id ≠ env.newId i) ∧ env.newId i ∉ st.remote)
    (herr : (Units.addUnits env st app process deploys q).1 =
      .error .createFailed) :
    (Units.addUnits env st app process deploys q).2 = st := by
  by_cases hq0 : q = 0
  · simp [Units.addUnits, hq0] at herr
  by_cases hdep : deploys = 0
  · simp [Units.addUnits, hq0, hdep] at herr
  unfold Units.addUnits at herr ⊢
  simp only [if_neg hq0, if_neg hdep] at herr ⊢
  split at herr
  · rename_i e st2 created2 heq
    have heq' : Units.createLoop env app process (List.range q)
        ⟨st.records ++ [], st.remote ++ [], st.routes, st.binds⟩ [] =
        (some e, st2, created2) := by
      rw [List.append_nil, List.append_nil]
      exact heq
    exact createLoop_error_rollback env app process (List.range q)
      st.records st.remote [] [] st.routes st.binds e st2 created2
      rfl (by simp) (by simp)
      (fun i hi => hfresh i (List.mem_range.mp hi)) heq'
  · rename_i st2 created2 heq
    simp at herr

/-- Witness for C3: adding 3 web units where the second container
creation fails (scenario of
TestProvisionerAddUnitsWithErrorDoesntLeaveLostUnits): the call errors
and the record store and remote set are exactly what they were. -/
theorem addUnits_failure_rolls_back_witness :
    (Units.addUnits
        ⟨fun i => i == 0, fun i => "n" ++ toString i, fun _ => false,
          fun _ => false⟩
        ⟨[⟨"c-89320", "myapp", "web", "started"⟩], ["c-89320"], [], []⟩
        "myapp" "web" 1 3).1 = .error .createFailed ∧
    (Units.addUnits
        ⟨fun i => i == 0, fun i => "n" ++ toString i, fun _ => false,
          fun _ => false⟩
        ⟨[⟨"c-89320", "myapp", "web", "started"⟩], ["c-89320"], [], []⟩
        "myapp" "web" 1 3).2 =
      ⟨[⟨"c-89320", "myapp", "web", "started"⟩], ["c-89320"], [], []⟩ := by
  refine ⟨rfl, ?_⟩
  exact addUnits_failure_rolls_back _ _ "myapp" "web" 1 3
    (by decide) rfl

/-- Witness for C1: the scenario of
TestProvisionerRemoveUnitsFailRemoveOldRoute — three containers (two
web, one worker), `RemoveUnits(2, "web")` with a forced route-removal
failure on container 3: the call errors and all records, routes, binds
and remote containers survive. -/
theorem removeUnits_route_failure_preserves_state_witness :
    (Units.removeUnits
        ⟨fun _ => true, fun _ => "", fun s => s == "3", fun _ => false⟩
        ⟨[⟨"1", "impius", "web", "started"⟩,
          ⟨"2", "impius", "worker", "started"⟩,
          ⟨"3", "impius", "web", "started"⟩],
          ["1", "2", "3"], ["1", "2", "3"], ["1", "2", "3"]⟩
        "impius" "web" 2).2.records =
      [⟨"1", "impius", "web", "started"⟩,
       ⟨"2", "impius", "worker", "started"⟩,
       ⟨"3", "impius", "web", "started"⟩] ∧
    (Units.removeUnits
        ⟨fun _ => true, fun _ => "", fun s => s == "3", fun _ => false⟩
        ⟨[⟨"1", "impius", "web", "started"⟩,
          ⟨"2", "impius", "worker", "started"⟩,
          ⟨"3", "impius", "web", "started"⟩],
          ["1", "2", "3"], ["1", "2", "3"], ["1", "2", "3"]⟩
        "impius" "web" 2).2.binds = ["1", "2", "3"] ∧
    (Units.removeUnits
        ⟨fun _ => true, fun _ => "", fun s => s == "3", fun _ => false⟩
        ⟨[⟨"1", "impius", "web", "started"⟩,
          ⟨"2", "impius", "worker", "started"⟩,
          ⟨"3", "impius", "web", "started"⟩],
          ["1", "2", "3"], ["1", "2", "3"], ["1", "2", "3"]⟩
        "impius" "web" 2).2.routes.toFinset =
      (["1", "2", "3"] : List String).toFinset := by
  have h := removeUnits_route_failure_preserves_state
    ⟨fun _ => true, fun _ => "", fun s => s == "3", fun _ => false⟩
    ⟨[⟨"1", "impius", "web", "started"⟩,
      ⟨"2", "impius", "worker", "started"⟩,
      ⟨"3", "impius", "web", "started"⟩],
      ["1", "2", "3"], ["1", "2", "3"], ["1", "2", "3"]⟩
    "impius" "web" 2 (by decide) (by decide)
  exact ⟨h.1, h.2.2.1, h.2.2.2.1⟩

/-- Witness for C7: removing 4 web units from an app that has only 3
fails with a "4 requested, only 3 available" error and leaves the state
unchanged (test scenario of TestProvisionerRemoveUnitsTooManyUnits). -/
theorem removeUnits_too_many_no_change_witness :
    Units.removeUnits
        ⟨fun _ => true, fun _ => "", fun _ => false, fun _ => false⟩
        ⟨[⟨"1", "impius", "web", "started"⟩, ⟨"2", "impius", "web", "started"⟩,
          ⟨"3", "impius", "web", "started"⟩], ["1", "2", "3"],
          ["1", "2", "3"], ["1", "2", "3"]⟩
        "impius" "web" 4 =
      (some (.tooMany 4 3),
       ⟨[⟨"1", "impius", "web", "started"⟩, ⟨"2", "impius", "web", "started"⟩,
         ⟨"3", "impius", "web", "started"⟩], ["1", "2", "3"],
         ["1", "2", "3"], ["1", "2", "3"]⟩) := by
  exact removeUnits_too_many_no_change _ _ "impius" "web" 4
    (by decide) (by decide)
